import Mathlib

/-!
Formal model of the Rhyme Lab Pro phonetic rhyme-analysis engine.

The development shallowly embeds two engine variants of the repository:

* `MainJs`: the primary engine in `main.js` (`RhymeAnalyzer`).  The file is
  embedded with JavaScript semantics taken literally.  In particular three
  regular expressions in that file are double-escaped in the source text:
  `cleanWord` uses `/[^\x5C\x5Cw']/g` (a character class keeping only the
  backslash, the letter `w` and the apostrophe), `normalizePhone` uses
  `/\x5C\x5Cd/g` (which removes literal backslash-`d` substrings, not digits),
  and `analyze` splits the text with `split('\x5C\x5Cn')` (a two-character
  separator: backslash then `n`, not a newline).  These literal semantics are
  reproduced faithfully here.  (The source file also carries a stray
  `}` / `return true;` / `}` fragment right after `isLineEnd`, lines 417-419;
  the embedding models the well-formed `isLineEnd` of lines 409-416 and
  ignores the stray fragment.)

* `Mini`: the minimal engine found in the unnamed working-version build
  (`wordToPhones`, `getRhymeTail`, `scoreRhyme`, `analyzeText`), whose regular
  expressions are well-formed and are embedded with their ordinary meaning.

All real-number arithmetic of the source is modelled with rational numbers.
Total Lean functions model the source's freedom from exceptions.
-/

/-- The apostrophe character (code 39). -/
def apos : Char := Char.ofNat 39

/-- The backslash character (code 92). -/
def bslash : Char := Char.ofNat 92

/-- The newline character (code 10). -/
def nlChar : Char := Char.ofNat 10

/-- A one-character string holding an apostrophe. -/
def aposS : String := String.mk [apos]

namespace RhymeLab

/-- ARPA vowel codes (`ARPA_VOWELS` in the source). -/
def ARPA_VOWELS : List String :=
  ["AA", "AE", "AH", "AO", "AW", "AY", "EH", "ER", "EY", "IH", "IY",
   "OW", "OY", "UH", "UW"]

/-- The vowel classification table (`VOWEL_CLASSES`). -/
def VOWEL_CLASSES : List (String × String) :=
  [("IY", "EE"), ("IH", "I"), ("EH", "E"), ("AE", "A"), ("AA", "AH"),
   ("AH", "UH"), ("AO", "OR"), ("OW", "O"), ("UH", "U"), ("UW", "OO"),
   ("EY", "AY"), ("AY", "EYE"), ("OY", "OY"), ("AW", "OW"), ("ER", "ER")]

/-- Lookup in `VOWEL_CLASSES`; `none` models the absent (`undefined`) case. -/
def vowelClass? (v : String) : Option String :=
  (VOWEL_CLASSES.find? (fun e => e.1 = v)).map (fun e => e.2)

/-- `VOWEL_CLASSES[base] || base`: the class when present, else the base. -/
def vowelClassOr (v : String) : String := (vowelClass? v).getD v

/-- Consonant pairs substitutable in slant rhymes (`CONSONANT_PAIRS`). -/
def CONSONANT_PAIRS : List (String × String) :=
  [("S", "Z"), ("F", "V"), ("T", "D"), ("K", "G"), ("P", "B"),
   ("SH", "ZH"), ("CH", "JH"), ("TH", "DH"), ("M", "N")]

/-- The symmetric consonant equivalence built by `buildConsonantEquivalence`. -/
def consonantsEquivalent (a b : String) : Bool :=
  CONSONANT_PAIRS.any (fun pr => (pr.1 = a && pr.2 = b) || (pr.1 = b && pr.2 = a))

/-- Stop words excluded from parts of the analysis (`STOP_WORDS`). -/
def STOP_WORDS : List String :=
  ["the", "and", "a", "an", "in", "on", "of", "is", "to", "for", "with",
   "that", "this", "these", "those", "are", "be", "i", "you", "he", "she",
   "it", "we", "they", "at", "from", "as", "by", "or", "if", "then", "but",
   "my", "me", "your", "our", "their", "his", "her", "im",
   "i" ++ aposS ++ "m", "ya", aposS ++ "em", "em",
   "ain" ++ aposS ++ "t", "aint", "uh", "yeah"]

/-- The curated exception dictionary of `main.js` (`CUSTOM_ARPA`). -/
def CUSTOM_ARPA : List (String × List String) :=
  [("ya", ["Y", "AA1"]), ("yall", ["Y", "AO1", "L"]),
   ("y" ++ aposS ++ "all", ["Y", "AO1", "L"]),
   ("gon", ["G", "AA1", "N"]), ("gonna", ["G", "AH1", "N", "AH0"]),
   ("wanna", ["W", "AA1", "N", "AH0"]), ("bru", ["B", "R", "UW1"]),
   (aposS ++ "em", ["AH0", "M"]), ("em", ["AH0", "M"]),
   ("lekker", ["L", "EH1", "K", "ER0"]), ("kak", ["K", "AA1", "K"]),
   ("finna", ["F", "IH1", "N", "AH0"]),
   ("tryna", ["T", "R", "AY1", "N", "AH0"]),
   ("boutta", ["B", "AW1", "T", "AH0"]),
   ("hella", ["HH", "EH1", "L", "AH0"]), ("ayy", ["EY1"]),
   ("bruh", ["B", "R", "AH1"]), ("nah", ["N", "AA1"]),
   ("aight", ["AY1", "T"]), ("yo", ["Y", "OW1"]),
   ("wassup", ["W", "AH1", "S", "AH0", "P"]),
   ("whatchu", ["W", "AH1", "CH", "UW0"]), ("cuz", ["K", "AH1", "Z"]),
   ("homie", ["HH", "OW1", "M", "IY0"]), ("thru", ["TH", "R", "UW1"]),
   ("tho", ["DH", "OW1"])]

/-- Dictionary lookup (`CUSTOM_ARPA[cleaned]`). -/
def lookupCustomArpa (w : String) : Option (List String) :=
  (CUSTOM_ARPA.find? (fun e => e.1 = w)).map (fun e => e.2)

/-- Multi-letter vowel spelling patterns (`VOWEL_PATTERNS`), in source order. -/
def VOWEL_PATTERNS : List (String × String) :=
  [("eigh", "EY"), ("ough", "AO"), ("augh", "AO"), ("eau", "OW"),
   ("igh", "AY"), ("oi", "OY"), ("oy", "OY"), ("ow", "AW"), ("ou", "AW"),
   ("ai", "EY"), ("ay", "EY"), ("ey", "EY"), ("ea", "IY"), ("ee", "IY"),
   ("ie", "IY"), ("oa", "OW"), ("oo", "UW"), ("eu", "UW"), ("au", "AO"),
   ("aw", "AO"), ("ur", "ER"), ("ir", "ER"), ("er", "ER"), ("ar", "AA"),
   ("or", "AO")]

/-- Consonant digraphs (`CONSONANT_DIGRAPHS`), in insertion order. -/
def CONSONANT_DIGRAPHS : List (String × String) :=
  [("ch", "CH"), ("sh", "SH"), ("th", "TH"), ("ph", "F"), ("wh", "W"),
   ("gh", "G"), ("ng", "NG"), ("qu", "KW"), ("ck", "K"), ("kn", "N"),
   ("wr", "R"), ("ps", "S")]

/-- Single-letter vowel table (`SIMPLE_VOWELS`). -/
def SIMPLE_VOWELS : List (Char × String) :=
  [("a".get 0, "AE"), ("e".get 0, "EH"), ("i".get 0, "IH"),
   ("o".get 0, "AO"), ("u".get 0, "AH"), ("y".get 0, "IH")]

/-- Single-letter consonant table (`CONSONANT_MAP`). -/
def CONSONANT_MAP : List (Char × String) :=
  [("b".get 0, "B"), ("c".get 0, "K"), ("d".get 0, "D"), ("f".get 0, "F"),
   ("g".get 0, "G"), ("h".get 0, "HH"), ("j".get 0, "JH"), ("k".get 0, "K"),
   ("l".get 0, "L"), ("m".get 0, "M"), ("n".get 0, "N"), ("p".get 0, "P"),
   ("q".get 0, "K"), ("r".get 0, "R"), ("s".get 0, "S"), ("t".get 0, "T"),
   ("v".get 0, "V"), ("w".get 0, "W"), ("x".get 0, "K"), ("z".get 0, "Z")]

/-- The characters of the string literal `'aeiouy'` used for the vowel test. -/
def simpleVowelChars : List Char := "aeiouy".data

/-- ASCII lower-casing of a character, as `toLowerCase` acts on ASCII text. -/
def lowerChar (c : Char) : Char :=
  if 65 ≤ c.toNat && c.toNat ≤ 90 then Char.ofNat (c.toNat + 32) else c

/-- A character matched by the token pattern `[A-Za-z']`. -/
def isTokenChar (c : Char) : Bool :=
  (65 ≤ c.toNat && c.toNat ≤ 90) || (97 ≤ c.toNat && c.toNat ≤ 122) || c = apos

/-- ASCII whitespace as trimmed by `String.prototype.trim`. -/
def isJsWs (c : Char) : Bool :=
  c.toNat = 32 || c.toNat = 9 || c.toNat = 10 || c.toNat = 13 ||
  c.toNat = 11 || c.toNat = 12

/-- `trim()` on a character list: drop whitespace from both ends. -/
def trimChars (l : List Char) : List Char :=
  ((l.dropWhile isJsWs).reverse.dropWhile isJsWs).reverse

end RhymeLab

namespace RhymeLab.MainJs

open RhymeLab

/-- `normalizePhone` of `main.js`: `phone.replace(/\x5C\x5Cd/g, '')`.  In a
JavaScript regex literal `\x5C\x5C` denotes one literal backslash, so this
removes occurrences of the two-character substring backslash-`d` and leaves
stress digits in place. -/
def stripLitBackslashD : List Char → List Char
  | [] => []
  | [c] => [c]
  | c :: d :: rest =>
    if c = bslash && d = "d".get 0 then stripLitBackslashD rest
    else c :: stripLitBackslashD (d :: rest)

/-- `normalizePhone(phone)`. -/
def normalizePhone (p : String) : String := String.mk (stripLitBackslashD p.data)

/-- `cleanWord` of `main.js`:
`word.toLowerCase().replace(/[^\x5C\x5Cw']/g, '').trim()`.  The doubled
backslash makes the character class match everything except a literal
backslash, the letter `w` and the apostrophe, so only those three characters
survive the replacement. -/
def cleanWord (w : String) : String :=
  String.mk (trimChars (((w.data.map lowerChar).filter
    (fun c => c = bslash || c = "w".get 0 || c = apos))))

/-- First table entry whose key is a prefix of the remaining characters,
returned with its key length (models `w.substr(i, pat.length) === pat`
inside the table loops of `g2pHeuristic`). -/
def findTableMatch (table : List (String × String)) (rest : List Char) :
    Option (Nat × String) :=
  (table.find? (fun e => e.1.data.isPrefixOf rest)).map
    (fun e => (e.1.data.length, e.2))

/-- Lookup of a single character in a character table. -/
def charLookup (table : List (Char × String)) (c : Char) : Option String :=
  (table.find? (fun e => e.1 = c)).map (fun e => e.2)

/-- The stress suffix attached to a generated vowel: `1` for the first vowel,
`0` afterwards. -/
def stressSuffix (stressed : Bool) : String := if stressed then "0" else "1"

/-- The scanning loop of `g2pHeuristic`.  The fuel counts loop iterations;
every iteration consumes at least one character (all table keys are
non-empty), so `fuel = rest.length` never runs out. -/
def g2pLoop : Nat → List Char → Bool → List String
  | 0, _, _ => []
  | _ + 1, [], _ => []
  | fuel + 1, c :: rest, stressed =>
    match findTableMatch VOWEL_PATTERNS (c :: rest) with
    | some (len, ph) =>
      (ph ++ stressSuffix stressed) :: g2pLoop fuel ((c :: rest).drop len) true
    | none =>
      match findTableMatch CONSONANT_DIGRAPHS (c :: rest) with
      | some (len, ph) => ph :: g2pLoop fuel ((c :: rest).drop len) stressed
      | none =>
        if c ∈ simpleVowelChars then
          ((charLookup SIMPLE_VOWELS c).getD "AH" ++ stressSuffix stressed) ::
            g2pLoop fuel rest true
        else
          match charLookup CONSONANT_MAP c with
          | some ph => ph :: g2pLoop fuel rest stressed
          | none => g2pLoop fuel rest stressed

/-- The duplicate-consonant collapse at the end of `g2pHeuristic`.  A phone is
kept when the accumulator is empty, differs from the last kept phone, or its
`normalizePhone` image is an ARPA vowel. -/
def dedupPhones : List String → List String → List String
  | acc, [] => acc
  | acc, p :: rest =>
    if acc = [] || acc.getLast? ≠ some p ||
        decide (normalizePhone p ∈ ARPA_VOWELS) then
      dedupPhones (acc ++ [p]) rest
    else dedupPhones acc rest

/-- `g2pHeuristic(word)`: lower-case, scan with the pattern tables, drop empty
entries, collapse adjacent duplicate consonants. -/
def g2pHeuristic (word : String) : List String :=
  let w := word.data.map lowerChar
  dedupPhones [] ((g2pLoop w.length w false).filter (fun p => p ≠ ""))

/-- `wordToPhones(word)`: clean, consult the exception dictionary, otherwise
fall back to the heuristic converter. -/
def wordToPhones (word : String) : List String :=
  let cleaned := cleanWord word
  match lookupCustomArpa cleaned with
  | some ps => ps
  | none => g2pHeuristic cleaned

/-- `phone.endsWith("1")`. -/
def endsWith1 (p : String) : Bool := p.data.getLast? = some ("1".get 0)

/-- The loop body of `syllabify`, carrying the syllables built so far, the
syllable under construction and the stress index. -/
def syllabifyGo : List String → List (List String) → List String →
    Option Nat → (List (List String) × Option Nat)
  | [], sylls, current, si =>
    (if current ≠ [] then sylls ++ [current] else sylls, si)
  | p :: rest, sylls, current, si =>
    if decide (normalizePhone p ∈ ARPA_VOWELS) then
      let sylls2 := if current ≠ [] then sylls ++ [current] else sylls
      let si2 := if endsWith1 p then some sylls2.length else si
      syllabifyGo rest sylls2 [p] si2
    else
      syllabifyGo rest sylls (current ++ [p]) si

/-- `syllabify(phones)`: split at recognized vowels; default the stress index
to the final syllable when no explicit stress was recorded. -/
def syllabify (phones : List String) : List (List String) × Option Nat :=
  let r := syllabifyGo phones [] [] none
  match r.2 with
  | some i => (r.1, some i)
  | none =>
    if r.1.length > 0 then (r.1, some (r.1.length - 1)) else (r.1, none)

/-- The voiced-to-voiceless folding table inside `normalizeCoda`. -/
def codaFold : List (String × String) :=
  [("Z", "S"), ("V", "F"), ("D", "T"), ("G", "K"), ("B", "P"),
   ("ZH", "SH"), ("JH", "CH"), ("DH", "TH")]

/-- `normalizeCoda(coda)`: fold voiced consonants and drop a trailing `HH`. -/
def normalizeCoda (coda : List String) : List String :=
  let r := coda.map (fun c =>
    ((codaFold.find? (fun e => e.1 = normalizePhone c)).map (fun e => e.2)).getD
      (normalizePhone c))
  if r.getLast? = some "HH" then r.dropLast else r

/-- The four vowel families of `getVowelFamily`. -/
def vowelFamilies : List (List String) :=
  [["EE", "I", "E"], ["A", "AH", "ER", "UH"], ["O", "OR", "OO", "U"],
   ["EYE", "OW", "OY", "AY"]]

/-- `getVowelFamily(vowel)`: index of the family containing the label, else 9. -/
def getVowelFamily (v : String) : Nat :=
  match vowelFamilies.findIdx? (fun f => f.contains v) with
  | some i => i
  | none => 9

end RhymeLab.MainJs

namespace RhymeLab.MainJs

open RhymeLab

/-- The helper `extractNucleusAndCoda` inside `getRhymeKey`: the (classified)
last vowel of the syllable and the consonants following a vowel. -/
def extractNucleusAndCoda (syl : List String) : Option String × List String :=
  syl.foldl (fun acc p =>
    let base := normalizePhone p
    if decide (base ∈ ARPA_VOWELS) then (some (vowelClassOr base), acc.2)
    else if acc.1 ≠ none then (acc.1, acc.2 ++ [base])
    else acc) (none, [])

/-- The fixed list of weak single-consonant codas in `getRhymeKey`. -/
def weakCodas : List (List String) :=
  [["S"], ["Z"], ["R"], ["L"], ["T"], ["D"], ["N"], ["M"]]

/-- `getRhymeKey(syllables, stressIndex)`: nucleus label plus normalized coda,
with weak-coda absorption of the previous syllable.  `none` models the
`null` result. -/
def getRhymeKey (syllables : List (List String)) (stressIndex : Option Nat) :
    Option (String × List String) :=
  if syllables = [] then none
  else
    let index := stressIndex.getD (syllables.length - 1)
    let clamped := min index (syllables.length - 1)
    let nc := extractNucleusAndCoda (syllables.getD clamped [])
    let nucleus := nc.1
    let coda := nc.2
    let isWeakCoda := coda.length ≤ 1 || weakCodas.contains coda
    let fc : Option String × List String :=
      if isWeakCoda && clamped > 0 then
        let pnc := extractNucleusAndCoda (syllables.getD (clamped - 1) [])
        match pnc.1 with
        | some pn => (some (pn ++ "+" ++ nucleus.getD ""), pnc.2 ++ coda)
        | none => (nucleus, pnc.2 ++ coda)
      else (nucleus, coda)
    match fc.1 with
    | some n => if n = "" then none else some (n, normalizeCoda fc.2)
    | none => none

/-- Join a list of strings with a separator, as `Array.prototype.join`. -/
def joinSep (sep : String) : List String → String
  | [] => ""
  | [x] => x
  | x :: y :: rest => x ++ sep ++ joinSep sep (y :: rest)

/-- `getMultisyllabicKey(syllables, tail)`: join the classified phones of the
last `tail` syllables with a dash. -/
def getMultisyllabicKey (syllables : List (List String)) (tail : Nat) :
    Option String :=
  if syllables = [] || tail = 0 then none
  else
    let actualTail := min tail syllables.length
    let keyParts :=
      (syllables.drop (syllables.length - actualTail)).foldl
        (fun acc syl => acc ++ syl.map (fun p =>
          let base := normalizePhone p
          if decide (base ∈ ARPA_VOWELS) then vowelClassOr base else base)) []
    if keyParts = [] then none else some (joinSep "-" keyParts)

/-- Split a character list at plus signs, as `split("+")` does (an empty
input yields one empty segment). -/
def splitOnPlus : List Char → List (List Char)
  | [] => [[]]
  | c :: rest =>
    if c = "+".get 0 then [] :: splitOnPlus rest
    else
      match splitOnPlus rest with
      | [] => [[c]]
      | seg :: segs => (c :: seg) :: segs

/-- `n.split("+").pop() || n`: the trailing element after the separator, with
the whole label as fallback when that element is empty. -/
def finalVowelComponent (n : String) : String :=
  let last := ((splitOnPlus n.data).getLast?).getD []
  if last = [] then n else String.mk last

/-- `nucleusDistance(n1, n2)`. -/
def nucleusDistance (n1 n2 : String) : ℚ :=
  if n1 = n2 then 0
  else
    let a := finalVowelComponent n1
    let b := finalVowelComponent n2
    if a = b then 1/20
    else if getVowelFamily a = getVowelFamily b then 1/4
    else 3/5

/-- `codaDistance(c1, c2)`: count mismatching consonants from the end,
penalize the length difference, scale by 0.35 and clamp at 1. -/
def codaDistance (c1 c2 : List String) : ℚ :=
  if c1 = c2 then 0
  else if c1 = [] || c2 = [] then 3/5
  else
    let pairMismatches : Nat :=
      ((c1.reverse.zip c2.reverse).countP
        (fun pr => ¬(pr.1 = pr.2 || consonantsEquivalent pr.1 pr.2)))
    let mismatches : ℚ :=
      (pairMismatches : ℚ) +
        ((max c1.length c2.length - min c1.length c2.length : Nat) : ℚ) * (1/2)
    min 1 (mismatches * (7/20))

/-- `rhymeDistance(k1, k2) = 0.7 * nucleusDistance + 0.3 * codaDistance`. -/
def rhymeDistance (k1 k2 : String × List String) : ℚ :=
  (7/10) * nucleusDistance k1.1 k2.1 + (3/10) * codaDistance k1.2 k2.2

end RhymeLab.MainJs

namespace RhymeLab.MainJs

open RhymeLab

/-- The plugin settings consumed by `analyze` (defaults from `onload`). -/
structure Settings where
  perfectThreshold : ℚ
  slantThreshold : ℚ
  highlightAssonance : Bool
  showInternalRhymes : Bool
deriving Repr, DecidableEq

/-- The default settings of `onload`. -/
def defaultSettings : Settings := ⟨1/10, 1/4, true, true⟩

/-- A word token as pushed by `analyze` (`{line, text, lower, phones,
syllables, stress, position}`). -/
structure WordTok where
  line : Nat
  text : String
  lower : String
  phones : List String
  syllables : List (List String)
  stress : Option Nat
  position : Nat
deriving Repr, DecidableEq, Inhabited

/-- A rhyme span (`{wordIndex, line, key, tail, multiKeys}`); the multi-keys
object holds at most the entries for tails 2 and 3. -/
structure SpanRec where
  wordIndex : Nat
  line : Nat
  key : String × List String
  tail : Nat
  mk2 : Option String
  mk3 : Option String
deriving Repr, DecidableEq, Inhabited

/-- `text.split('\x5C\x5Cn')`: split on the two-character sequence
backslash-`n` (never on an actual newline). -/
def splitLitBackslashN : List Char → List (List Char)
  | [] => [[]]
  | [c] => [[c]]
  | c :: d :: rest =>
    if c = bslash && d = "n".get 0 then [] :: splitLitBackslashN rest
    else
      match splitLitBackslashN (d :: rest) with
      | [] => [[c]]
      | seg :: segs => (c :: seg) :: segs

/-- `line.matchAll(/[A-Za-z']+/g)`: the maximal runs of letters and
apostrophes with their start offsets.  The fuel counts loop steps; each step
consumes at least one character, so `fuel = l.length` suffices. -/
def tokenize : Nat → List Char → Nat → List (String × Nat)
  | 0, _, _ => []
  | _ + 1, [], _ => []
  | fuel + 1, c :: rest, i =>
    if isTokenChar c then
      let run := c :: rest.takeWhile isTokenChar
      (String.mk run, i) ::
        tokenize fuel (rest.dropWhile isTokenChar) (i + run.length)
    else tokenize fuel rest (i + 1)

/-- The word-token record built for one regex match inside `analyze`;
`none` models the `continue` on short stop words. -/
def mkWordTok (lineIdx : Nat) (tok : String) (pos : Nat) : Option WordTok :=
  let cleaned := cleanWord tok
  if STOP_WORDS.contains cleaned && cleaned.length ≤ 2 then none
  else
    let phones := wordToPhones cleaned
    let sr := syllabify phones
    some { line := lineIdx, text := tok, lower := cleaned, phones := phones,
           syllables := sr.1, stress := sr.2, position := pos }

/-- The word-extraction loop of `analyze` over all lines. -/
def extractWords (text : String) : List WordTok :=
  ((splitLitBackslashN text.data).enum).flatMap (fun le =>
    (tokenize le.2.length le.2 0).filterMap (fun tp => mkWordTok le.1 tp.1 tp.2))

/-- The span-building loop of `analyze`: words with a rhyme key, together with
their tail length and multi-syllabic keys for tails 2 and 3. -/
def buildSpans (words : List WordTok) : List SpanRec :=
  words.enum.filterMap (fun iw =>
    let w := iw.2
    match getRhymeKey w.syllables w.stress with
    | none => none
    | some key =>
      let stressIndex := w.stress.getD (w.syllables.length - 1)
      let tail := max 1 (w.syllables.length - stressIndex)
      let mk2 := if 2 < min 4 (w.syllables.length + 1) then
          getMultisyllabicKey w.syllables 2 else none
      let mk3 := if 3 < min 4 (w.syllables.length + 1) then
          getMultisyllabicKey w.syllables 3 else none
      some { wordIndex := iw.1, line := w.line, key := key, tail := tail,
             mk2 := mk2, mk3 := mk3 })

/-- `isLineEnd(wordIndex, words)`: the first later word decides — a word is
line-final when the next word is on another line or does not exist. -/
def isLineEnd (words : List WordTok) (wi : Nat) : Bool :=
  match words.get? (wi + 1) with
  | none => true
  | some w2 => w2.line ≠ ((words.getD wi default).line)

/-- One pass of the greedy single-link clustering shared by the grouping
loops: scan indices in order, skip assigned ones, and give each unassigned
seed the later indices accepted by `joinOk`.  `seedOk` models the loops that
also skip certain seeds (the stop-word test of the assonance pass); inside one
scan the mutable `used` set only ever grows by the indices returned, so the
filter over the entry state reproduces the loop.  The fuel is the number of
remaining iterations (`n - i`). -/
def greedyPass (seedOk : Nat → Bool) (joinOk : Nat → Nat → Bool)
    (minSize : Nat) (n : Nat) :
    Nat → Nat → List Nat → List (List Nat)
  | 0, _, _ => []
  | fuel + 1, i, assigned =>
    if i < n then
      if assigned.contains i || !seedOk i then
        greedyPass seedOk joinOk minSize n fuel (i + 1) assigned
      else
        let members := ((List.range n).filter (fun j =>
          i < j && !assigned.contains j && joinOk i j))
        let g := i :: members
        let rest := greedyPass seedOk joinOk minSize n fuel (i + 1)
          (assigned ++ g)
        if g.length ≥ minSize then g :: rest else rest
    else []

/-- The multi-syllabic bypass of the first grouping pass: equal 3-syllable or
2-syllable joined keys. -/
def multiKeyMatch (s1 s2 : SpanRec) : Bool :=
  (match s1.mk3, s2.mk3 with
   | some a, some b => a = b
   | _, _ => false) ||
  (match s1.mk2, s2.mk2 with
   | some a, some b => a = b
   | _, _ => false)

/-- The position-sensitive threshold of the grouping pass. -/
def pairThreshold (st : Settings) (words : List WordTok) (s1 s2 : SpanRec) :
    ℚ :=
  let e1 := isLineEnd words s1.wordIndex
  let e2 := isLineEnd words s2.wordIndex
  if e1 && e2 then st.perfectThreshold
  else if e1 || e2 then (st.perfectThreshold + st.slantThreshold) / 2
  else st.slantThreshold

/-- Whether span `j` joins the group seeded by span `i` in the first grouping
pass of `analyze`: never for a repeated word, else on a multi-syllabic key
match or when the rhyme distance is within the positional threshold. -/
def rhymeJoinOk (st : Settings) (words : List WordTok)
    (spans : List SpanRec) (i j : Nat) : Bool :=
  let si := spans.getD i default
  let sj := spans.getD j default
  if (words.getD si.wordIndex default).lower =
      (words.getD sj.wordIndex default).lower then false
  else multiKeyMatch si sj ||
    decide (rhymeDistance si.key sj.key ≤ pairThreshold st words si sj)

/-- The rhyme groups of `analyze`, as lists of span indices. -/
def rhymeGroups (st : Settings) (words : List WordTok)
    (spans : List SpanRec) : List (List Nat) :=
  greedyPass (fun _ => true) (rhymeJoinOk st words spans) 2
    spans.length spans.length 0 []

/-- The helper `getStressedVowel` inside `detectAssonance`. -/
def getStressedVowel (w : WordTok) : Option String :=
  let stressIndex := w.stress.getD (w.syllables.length - 1)
  if stressIndex < w.syllables.length then
    (w.syllables.getD stressIndex []).findSome? (fun p =>
      let base := normalizePhone p
      if decide (base ∈ ARPA_VOWELS) then some (vowelClassOr base) else none)
  else none

/-- `detectAssonance(w1, w2)`: equal or same-family stressed vowel labels. -/
def detectAssonance (w1 w2 : WordTok) : Bool :=
  if w1.syllables = [] || w2.syllables = [] then false
  else
    match getStressedVowel w1, getStressedVowel w2 with
    | some v1, some v2 => v1 = v2 || getVowelFamily v1 = getVowelFamily v2
    | _, _ => false

/-- Whether word `j` joins the assonance group seeded by word `i`. -/
def assonanceJoinOk (words : List WordTok) (i j : Nat) : Bool :=
  let wi := words.getD i default
  let wj := words.getD j default
  !STOP_WORDS.contains wj.lower && wj.lower ≠ wi.lower &&
    detectAssonance wi wj

/-- The assonance groups of `analyze` (word indices, minimum size 3). -/
def assonanceGroups (st : Settings) (words : List WordTok) :
    List (List Nat) :=
  if st.highlightAssonance then
    greedyPass (fun i => !STOP_WORDS.contains ((words.getD i default).lower))
      (assonanceJoinOk words) 3 words.length words.length 0 []
  else []

end RhymeLab.MainJs

namespace RhymeLab.MainJs

open RhymeLab

/-- The kind tag of a `wordToGroup` entry (`'rhyme'` / `'assonance'`). -/
inductive GroupKind where
  | rhyme : GroupKind
  | assonance : GroupKind
deriving Repr, DecidableEq

/-- One `wordToGroup` entry `[groupId, tail, type]`. -/
structure GEntry where
  gid : Nat
  tl : Nat
  kind : GroupKind
deriving Repr, DecidableEq

/-- The `wordToGroup` entries of one word index: its rhyme-group entries (with
the span tail) followed by its assonance entries (tail 1, ids offset by the
number of rhyme groups), exactly as the two `forEach` loops push them. -/
def wordEntries (spans : List SpanRec) (groups asg : List (List Nat))
    (i : Nat) : List GEntry :=
  (groups.enum.flatMap (fun ge =>
    ge.2.filterMap (fun sIdx =>
      let sp := spans.getD sIdx default
      if sp.wordIndex = i then some ⟨ge.1, sp.tail, GroupKind.rhyme⟩
      else none))) ++
  (asg.enum.filterMap (fun ae =>
    if ae.2.contains i then
      some ⟨groups.length + ae.1, 1, GroupKind.assonance⟩
    else none))

/-- All ordered pairs of a list, first component earlier. -/
def orderedPairs {α : Type} : List α → List (α × α)
  | [] => []
  | x :: rest => rest.map (fun y => (x, y)) ++ orderedPairs rest

/-- `Math.max(...words.map(w => w.line), -1)` as an integer. -/
def maxLine (words : List WordTok) : Int :=
  words.foldl (fun m w => max m (w.line : Int)) (-1)

/-- The per-line internal-rhyme pairs of `analyze` (computed only when
`showInternalRhymes` is set); lines with no pairs are omitted, as in the
source object. -/
def internalRhymes (st : Settings) (words : List WordTok) :
    List (Nat × List (Nat × Nat)) :=
  if st.showInternalRhymes then
    (List.range ((maxLine words + 1).toNat)).filterMap (fun lineIndex =>
      let lineWords := words.enum.filter (fun iw => iw.2.line = lineIndex)
      let pairs := (orderedPairs lineWords).filterMap (fun pr =>
        let w1 := pr.1.2
        let w2 := pr.2.2
        if w1.lower = w2.lower then none
        else
          match getRhymeKey w1.syllables w1.stress,
                getRhymeKey w2.syllables w2.stress with
          | some k1, some k2 =>
            if rhymeDistance k1 k2 ≤ st.slantThreshold then
              some (pr.1.1, pr.2.1)
            else none
          | _, _ => none)
      if pairs = [] then none else some (lineIndex, pairs))
  else []

/-- The last word index on a given line (`buildScheme` scans from the end). -/
def lastWordOnLine (words : List WordTok) (line : Nat) : Option Nat :=
  (List.range words.length).reverse.find? (fun i =>
    (words.getD i default).line = line)

/-- The line-by-line loop of `buildScheme`, threading the group-to-letter
assignment and the next character code. -/
def buildSchemeGo (words : List WordTok) (entriesFor : Nat → List GEntry) :
    List Nat → List (Nat × Char) → Nat → List Char
  | [], _, _ => []
  | line :: rest, assoc, next =>
    match lastWordOnLine words line with
    | none => "-".get 0 :: buildSchemeGo words entriesFor rest assoc next
    | some lw =>
      match (entriesFor lw).head? with
      | none => "-".get 0 :: buildSchemeGo words entriesFor rest assoc next
      | some e =>
        match (assoc.find? (fun p => p.1 = e.gid)).map (fun p => p.2) with
        | some ch => ch :: buildSchemeGo words entriesFor rest assoc next
        | none =>
          let ch := Char.ofNat (65 + next)
          ch :: buildSchemeGo words entriesFor rest
            (assoc ++ [(e.gid, ch)]) (next + 1)

/-- `buildScheme(words, wordToGroup)`. -/
def buildScheme (words : List WordTok) (entriesFor : Nat → List GEntry) :
    String :=
  String.mk
    (buildSchemeGo words entriesFor
      (List.range ((maxLine words + 1).toNat)) [] 0)

/-- The metrics record of `analyze`. -/
structure Metrics where
  totalSyllables : Nat
  rhymingSyllables : Nat
  density : ℚ
  multiRatio : ℚ
  avgPerLine : ℚ
  scheme : String
  rhymeTypeCount : Nat
  assonanceTypeCount : Nat
  uniqueRhymeGroups : Nat
  uniqueAssonanceGroups : Nat
deriving Repr, DecidableEq

/-- The full analysis result returned by `analyze`. -/
structure AnalysisResult where
  lines : List String
  words : List WordTok
  spans : List SpanRec
  groups : List (List Nat)
  assonanceGroups : List (List Nat)
  internalRhymes : List (Nat × List (Nat × Nat))
  metrics : Metrics
deriving Repr, DecidableEq

/-- The metric computations at the end of `analyze`. -/
def buildMetrics (words : List WordTok) (groups asg : List (List Nat))
    (entriesFor : Nat → List GEntry) : Metrics :=
  let totalSyllables := (words.map (fun w => w.syllables.length)).sum
  let rhymingSyllables :=
    ((List.range words.length).map (fun i =>
      ((entriesFor i).map (fun e => e.tl)).foldl max 0)).sum
  let multiSyllables :=
    ((List.range words.length).map (fun i =>
      ((entriesFor i).map (fun e => if e.tl ≥ 2 then e.tl else 0)).sum)).sum
  let wordsWithEntries :=
    (List.range words.length).filter (fun i => entriesFor i ≠ [])
  let lineTailSum :=
    (wordsWithEntries.map (fun i =>
      ((entriesFor i).map (fun e => e.tl)).foldl max 0)).sum
  let numRhymeLines :=
    ((wordsWithEntries.map (fun i => (words.getD i default).line)).dedup).length
  let avgPerLine : ℚ :=
    if numRhymeLines > 0 then (lineTailSum : ℚ) / (numRhymeLines : ℚ) else 0
  let density : ℚ :=
    if totalSyllables > 0 then (rhymingSyllables : ℚ) / (totalSyllables : ℚ)
    else 0
  let multiRatio : ℚ :=
    if rhymingSyllables > 0 then (multiSyllables : ℚ) / (rhymingSyllables : ℚ)
    else 0
  let rhymeTypeCount :=
    ((List.range words.length).map (fun i =>
      (entriesFor i).countP (fun e => e.kind = GroupKind.rhyme))).sum
  let assonanceTypeCount :=
    ((List.range words.length).map (fun i =>
      (entriesFor i).countP (fun e => e.kind = GroupKind.assonance))).sum
  { totalSyllables := totalSyllables, rhymingSyllables := rhymingSyllables,
    density := density, multiRatio := multiRatio, avgPerLine := avgPerLine,
    scheme := buildScheme words entriesFor,
    rhymeTypeCount := rhymeTypeCount,
    assonanceTypeCount := assonanceTypeCount,
    uniqueRhymeGroups := groups.length,
    uniqueAssonanceGroups := asg.length }

/-- The body of `analyze` after word extraction. -/
def analyzeWords (lines : List String) (words : List WordTok)
    (st : Settings) : AnalysisResult :=
  let spans := buildSpans words
  let groups := rhymeGroups st words spans
  let asg := assonanceGroups st words
  let entriesFor := wordEntries spans groups asg
  { lines := lines, words := words, spans := spans, groups := groups,
    assonanceGroups := asg, internalRhymes := internalRhymes st words,
    metrics := buildMetrics words groups asg entriesFor }

/-- `RhymeAnalyzer.analyze(text)`: the complete analysis pipeline. -/
def analyze (text : String) (st : Settings) : AnalysisResult :=
  analyzeWords ((splitLitBackslashN text.data).map String.mk)
    (extractWords text) st

end RhymeLab.MainJs

namespace RhymeLab.Mini

open RhymeLab

/-- The slang dictionary of the minimal engine (`CUSTOM_ARPA` in the
working-version build). -/
def CUSTOM_ARPA_MINI : List (String × List String) :=
  [("ya", ["Y", "AA1"]),
   ("gonna", ["G", "AH1", "N", "AH0"]),
   ("wanna", ["W", "AA1", "N", "AH0"]),
   ("ain" ++ aposS ++ "t", ["EY1", "N", "T"]),
   ("bruh", ["B", "R", "AH1"]),
   ("nah", ["N", "AA1"]),
   ("yo", ["Y", "OW1"]),
   ("playin" ++ aposS, ["P", "L", "EY1", "IH0", "N"]),
   ("playin", ["P", "L", "EY1", "IH0", "N"]),
   ("puttin" ++ aposS, ["P", "UH1", "T", "IH0", "N"]),
   ("puttin", ["P", "UH1", "T", "IH0", "N"]),
   ("messin" ++ aposS, ["M", "EH1", "S", "IH0", "N"]),
   ("messin", ["M", "EH1", "S", "IH0", "N"]),
   ("comin" ++ aposS, ["K", "AH1", "M", "IH0", "N"]),
   ("comin", ["K", "AH1", "M", "IH0", "N"]),
   ("swimmin" ++ aposS, ["S", "W", "IH1", "M", "IH0", "N"]),
   ("swimmin", ["S", "W", "IH1", "M", "IH0", "N"]),
   ("sittin" ++ aposS, ["S", "IH1", "T", "IH0", "N"]),
   ("sittin", ["S", "IH1", "T", "IH0", "N"])]

/-- A character of the regex class `\w` (letters, digits, underscore). -/
def isWordCharJs (c : Char) : Bool :=
  (65 ≤ c.toNat && c.toNat ≤ 90) || (97 ≤ c.toNat && c.toNat ≤ 122) ||
  (48 ≤ c.toNat && c.toNat ≤ 57) || c.toNat = 95

/-- The consonant table of the minimal `wordToPhones` (no `q`, no `x`). -/
def CONSONANT_MAP_MINI : List (Char × String) :=
  [("b".get 0, "B"), ("c".get 0, "K"), ("d".get 0, "D"), ("f".get 0, "F"),
   ("g".get 0, "G"), ("h".get 0, "HH"), ("j".get 0, "JH"), ("k".get 0, "K"),
   ("l".get 0, "L"), ("m".get 0, "M"), ("n".get 0, "N"), ("p".get 0, "P"),
   ("r".get 0, "R"), ("s".get 0, "S"), ("t".get 0, "T"), ("v".get 0, "V"),
   ("w".get 0, "W"), ("z".get 0, "Z")]

/-- The vowel phoneme of the minimal engine's nested conditional. -/
def miniVowelPhone (c : Char) : String :=
  if c = "a".get 0 then "AE"
  else if c = "e".get 0 then "EH"
  else if c = "i".get 0 then "IH"
  else if c = "o".get 0 then "AO"
  else if c = "u".get 0 then "AH"
  else "IH"

/-- The per-character conversion loop of the minimal `wordToPhones`. -/
def miniPhonesLoop : List Char → Bool → List String
  | [], _ => []
  | c :: rest, stressed =>
    if c ∈ simpleVowelChars then
      (miniVowelPhone c ++ (if stressed then "0" else "1")) ::
        miniPhonesLoop rest true
    else
      match (CONSONANT_MAP_MINI.find? (fun e => e.1 = c)).map (fun e => e.2) with
      | some ph => ph :: miniPhonesLoop rest stressed
      | none => miniPhonesLoop rest stressed

/-- `wordToPhones(word)` of the minimal engine: lower-case, strip characters
outside `[\w']`, consult the slang dictionary, otherwise convert
letter-by-letter. -/
def wordToPhones (word : String) : List String :=
  let cleaned := String.mk ((word.data.map lowerChar).filter
    (fun c => isWordCharJs c || c = apos))
  match (CUSTOM_ARPA_MINI.find? (fun e => e.1 = cleaned)).map (fun e => e.2) with
  | some ps => ps
  | none => miniPhonesLoop cleaned.data false

/-- `p.replace(/[0-2]$/, '')`: drop one trailing stress digit. -/
def strip02 (p : String) : String :=
  match p.data.getLast? with
  | some c =>
    if c = "0".get 0 || c = "1".get 0 || c = "2".get 0 then
      String.mk p.data.dropLast
    else p
  | none => p

/-- `getRhymeTail(phones)`: from the last vowel to the end; with no vowel,
`phones.slice(-2)` — the last two phonemes or fewer. -/
def getRhymeTail (phones : List String) : List String :=
  match phones.enum.reverse.find?
      (fun ip => decide (strip02 ip.2 ∈ ARPA_VOWELS)) with
  | some ip => phones.drop ip.1
  | none => phones.drop (phones.length - 2)

/-- `tail.join(' ')` at the character level. -/
def joinSpData : List String → List Char
  | [] => []
  | [x] => x.data
  | x :: y :: rest => x.data ++ " ".get 0 :: joinSpData (y :: rest)

/-- One term of the positional score: `1/(i+1)` for an exact stripped match,
`0.5/(i+1)` for equal `VOWEL_CLASSES` images (two absent images compare
equal, as `undefined === undefined` does). -/
def scoreTerm (t1 t2 : List String) (i : Nat) : ℚ :=
  let p1 := strip02 (t1.getD (t1.length - 1 - i) "")
  let p2 := strip02 (t2.getD (t2.length - 1 - i) "")
  if p1 = p2 then 1 / ((i : ℚ) + 1)
  else if vowelClass? p1 = vowelClass? p2 then (1/2) / ((i : ℚ) + 1)
  else 0

/-- `scoreRhyme(tail1, tail2)` of the minimal engine. -/
def scoreRhyme (t1 t2 : List String) : ℚ :=
  if t1 = [] || t2 = [] then 0
  else if joinSpData t1 = joinSpData t2 then 1
  else
    min (19/20)
      (((List.range (min t1.length t2.length)).map (scoreTerm t1 t2)).sum)

end RhymeLab.Mini

namespace RhymeLab.Mini

open RhymeLab

/-- Whether the optional character is a `\w` character (`\b` looks at the
characters on both sides; a missing side counts as non-word). -/
def optIsWord (c : Option Char) : Bool :=
  match c with
  | some c => isWordCharJs c
  | none => false

/-- A word boundary `\b` between two (possibly missing) characters. -/
def boundaryB (a b : Option Char) : Bool := optIsWord a != optIsWord b

/-- Backtracking of the trailing `\b` of `/\b[A-Za-z']+\b/`: the largest
prefix length `L ≥ 1` of the run such that a boundary holds after its last
character (the following character is the rest of the run, or the first
character after the run). -/
def pickLen (run : List Char) (next : Option Char) : Option Nat :=
  (List.range run.length).reverse.findSome? (fun k =>
    let after := if k + 1 < run.length then some (run.getD (k + 1) default)
                 else next
    if boundaryB (some (run.getD k default)) after then some (k + 1)
    else none)

/-- `line.match(/\b[A-Za-z']+\b/g)`: scan left to right; at a leading
boundary take the maximal `[A-Za-z']` run, shorten it until the trailing
boundary holds, and resume after the match (or one character further when no
length works).  The fuel counts scan steps; every step consumes at least one
character, so `fuel = l.length` suffices. -/
def tokenizeMini : Nat → Option Char → List Char → List String
  | 0, _, _ => []
  | _ + 1, _, [] => []
  | fuel + 1, prev, c :: rest =>
    if isTokenChar c && boundaryB prev (some c) then
      let run := c :: rest.takeWhile isTokenChar
      let after := rest.dropWhile isTokenChar
      match pickLen run after.head? with
      | some len =>
        String.mk (run.take len) ::
          tokenizeMini fuel (some (run.getD (len - 1) default))
            (run.drop len ++ after)
      | none => tokenizeMini fuel (some c) rest
    else tokenizeMini fuel (some c) rest

/-- Split a character list at newline characters (`text.split('\n')` with a
well-formed separator, as in the minimal engine). -/
def splitOnNl : List Char → List (List Char)
  | [] => [[]]
  | c :: rest =>
    if c = nlChar then [] :: splitOnNl rest
    else
      match splitOnNl rest with
      | [] => [[c]]
      | seg :: segs => (c :: seg) :: segs

/-- `line.indexOf(sub, from)`: first occurrence position at or after `from`. -/
def indexOfFrom (l sub : List Char) (start : Nat) : Option Nat :=
  (List.range (l.length + 1)).find? (fun p =>
    start ≤ p && sub.isPrefixOf (l.drop p))

/-- A word record of the minimal engine (`{text, line, start, end, phones,
tail}`). -/
structure WordMini where
  text : String
  line : Nat
  start : Nat
  endPos : Nat
  phones : List String
  tail : List String
deriving Repr, DecidableEq, Inhabited

/-- The per-line word-collection loop of `analyzeText`, threading
`linePos`. -/
def collectLineWords (lineIdx : Nat) (globalPos : Nat) (line : List Char) :
    List String → Nat → List WordMini
  | [], _ => []
  | tok :: toks, linePos =>
    let wordStart := (indexOfFrom line tok.data linePos).getD 0
    let start := globalPos + wordStart
    let phones := wordToPhones tok
    { text := tok, line := lineIdx, start := start,
      endPos := start + tok.length, phones := phones,
      tail := getRhymeTail phones } ::
      collectLineWords lineIdx globalPos line toks (wordStart + tok.length)

/-- The word-extraction phase of `analyzeText`: all lines, threading the
global character offset (`globalPos += line.length + 1`). -/
def extractWordsMini (text : String) : List WordMini :=
  let lines := splitOnNl text.data
  (lines.enum.foldl (fun acc le =>
    let lineWords :=
      collectLineWords le.1 acc.2 le.2 (tokenizeMini le.2.length none le.2) 0
    (acc.1 ++ lineWords, acc.2 + le.2.length + 1)) (([] : List WordMini), 0)).1

/-- The lower-cased surface text of the word at an index (the comparison
`allWords[i].text.toLowerCase()` of the grouping loop). -/
def lowerTextAt (words : List WordMini) (i : Nat) : String :=
  String.mk ((words.getD i default).text.data.map lowerChar)

/-- Whether word `j` may join the group seeded by word `i` in the minimal
engine: score at least the threshold, and different lower-cased text. -/
def miniJoinOk (words : List WordMini) (threshold : ℚ) (i j : Nat) : Bool :=
  decide (scoreRhyme (words.getD i default).tail
    (words.getD j default).tail ≥ threshold) &&
  lowerTextAt words i ≠ lowerTextAt words j

/-- The greedy grouping pass of `analyzeText` (groups of size at least 2). -/
def findGroupsMini (words : List WordMini) (threshold : ℚ) :
    List (List Nat) :=
  MainJs.greedyPass (fun _ => true) (miniJoinOk words threshold) 2
    words.length words.length 0 []

/-- The result of the minimal `analyzeText`. -/
structure MiniResult where
  words : List WordMini
  groups : List (List Nat)
deriving Repr, DecidableEq

/-- `analyzeText(text, threshold)` of the minimal engine. -/
def analyzeText (text : String) (threshold : ℚ) : MiniResult :=
  let words := extractWordsMini text
  { words := words, groups := findGroupsMini words threshold }

end RhymeLab.Mini


namespace RhymeLab.MainJs

open RhymeLab

/-- The restricted character alphabet produced by the literal `cleanWord`. -/
def isWqChar (c : Char) : Prop := c = "w".get 0 ∨ c = apos

instance (c : Char) : Decidable (isWqChar c) := by
  unfold isWqChar
  infer_instance

end RhymeLab.MainJs

namespace RhymeLab

/-- The whitespace characters of empty or blank input (space, tab, newline,
carriage return). -/
def wsChars : List Char := [Char.ofNat 32, Char.ofNat 9, Char.ofNat 10,
  Char.ofNat 13]

end RhymeLab

namespace RhymeLab.Spec

open RhymeLab

/-- The fifteen nucleus labels producible by the vowel-classification table
(the image of `VOWEL_CLASSES`); every non-absent rhyme key's final vowel
component is one of these. -/
def nucleusLabels : List String :=
  ["EE", "I", "E", "A", "AH", "UH", "OR", "O", "U", "OO", "AY", "EYE",
   "OY", "OW", "ER"]

/-- Membership of two labels in one member of the fixed 4-way vowel-family
partition, as the specification words it. -/
def sameFamily4 (a b : String) : Bool :=
  MainJs.vowelFamilies.any (fun f => f.contains a && f.contains b)

/-- The specification's nucleus distance: 0 on equal labels, 0.05 on equal
final vowel components, 0.25 within one family of the 4-way partition, 0.6
otherwise. -/
def specNucleusDistance (n1 n2 : String) : ℚ :=
  if n1 = n2 then 0
  else
    let a := MainJs.finalVowelComponent n1
    let b := MainJs.finalVowelComponent n2
    if a = b then 1/20
    else if sameFamily4 a b then 1/4
    else 3/5

/-- The specification's coda distance: 0 on equal lists, 0.6 when exactly one
list is empty, otherwise 0.35 times the mismatch count — end-aligned pairwise
mismatches (recognized equivalent pairs do not count) plus 0.5 per unit of
length difference — clamped to 1. -/
def specCodaDistance (c1 c2 : List String) : ℚ :=
  if c1 = c2 then 0
  else if c1 = [] || c2 = [] then 3/5
  else
    let pairMismatches : Nat :=
      ((c1.reverse.zip c2.reverse).countP
        (fun pr => ¬(pr.1 = pr.2 || consonantsEquivalent pr.1 pr.2)))
    let mismatches : ℚ :=
      (pairMismatches : ℚ) +
        ((max c1.length c2.length - min c1.length c2.length : Nat) : ℚ) * (1/2)
    min 1 (mismatches * (7/20))

/-- The specification's combined distance
`0.7 * nucleusDistance + 0.3 * codaDistance`. -/
def specRhymeDistance (k1 k2 : String × List String) : ℚ :=
  (7/10) * specNucleusDistance k1.1 k2.1 + (3/10) * specCodaDistance k1.2 k2.2

end RhymeLab.Spec

namespace RhymeLab.Spec

open RhymeLab

/-- The data model's notion of a vowel phoneme: an ARPA vowel code optionally
suffixed with a stress digit.  Used to state the syllabification claims. -/
def isVowelPhone (p : String) : Bool :=
  decide (String.mk (p.data.filter (fun c => !c.isDigit)) ∈ ARPA_VOWELS)

/-- The position, in a syllable list, of the first syllable holding a vowel
phoneme that carries stress digit 1 — the stressed index the specification
prescribes for `syllabify`. -/
def firstStress1Syllable (sylls : List (List String)) : Option Nat :=
  sylls.findIdx? (fun s =>
    s.any (fun p => isVowelPhone p && p.data.getLast? = some ("1".get 0)))

end RhymeLab.Spec

namespace RhymeLab.MainJs

open RhymeLab

/-- The number of word tokens assigned to some rhyme group of an analysis
result: groups hold pairwise distinct span indices, each standing for one
word token. -/
def assignedWordCount (text : String) (st : Settings) : Nat :=
  (((analyze text st).groups).map List.length).sum

/-- The two-line scenario input of the specification, with a real newline. -/
def catHatText : String := "cat" ++ String.mk [nlChar] ++ "hat"

end RhymeLab.MainJs

namespace RhymeLab

/-- Two strings with equal character data are equal. -/
theorem string_eq_of_data_eq {s t : String} (h : s.data = t.data) : s = t := by
  cases s
  cases t
  exact congrArg String.mk h

/-- `Char.ofNat` of a valid code point has that code point. -/
theorem toNat_ofNat_valid (n : Nat) (h : n.isValidChar) :
    (Char.ofNat n).toNat = n := by
  unfold Char.ofNat
  simp only [Char.ofNatAux, h, dite_true]
  simp [Char.toNat, UInt32.toNat]

/-- Characters of a prefix belong to the longer list. -/
theorem mem_of_isPrefixOf {l1 l2 : List Char} (h : l1.isPrefixOf l2)
    {c : Char} (hc : c ∈ l1) : c ∈ l2 :=
  ((List.isPrefixOf_iff_prefix.mp h).sublist).subset hc

/-- `trimChars` only removes characters. -/
theorem mem_trimChars {l : List Char} {c : Char} (h : c ∈ trimChars l) :
    c ∈ l := by
  unfold trimChars at h
  rw [List.mem_reverse] at h
  have h2 := (List.dropWhile_sublist (l := (l.dropWhile isJsWs).reverse)
    (p := isJsWs)).subset h
  rw [List.mem_reverse] at h2
  exact (List.dropWhile_sublist (l := l) (p := isJsWs)).subset h2

/-- Lower-casing a token character yields an apostrophe or a lower-case
letter. -/
theorem lowerChar_of_token {c : Char} (h : isTokenChar c = true) :
    (lowerChar c).toNat = 39 ∨
      (97 ≤ (lowerChar c).toNat ∧ (lowerChar c).toNat ≤ 122) := by
  unfold isTokenChar at h
  unfold lowerChar
  by_cases hu : (65 ≤ c.toNat && c.toNat ≤ 90) = true
  · simp only [hu, if_true]
    simp only [Bool.and_eq_true, decide_eq_true_eq] at hu
    have hv : (c.toNat + 32).isValidChar := by
      left
      omega
    rw [toNat_ofNat_valid _ hv]
    right
    omega
  · simp only [hu, if_false]
    simp only [Bool.or_eq_true, Bool.and_eq_true, decide_eq_true_eq] at h
    rcases h with (h | h) | h
    · exact absurd (by simp [h.1, h.2] : (65 ≤ c.toNat && c.toNat ≤ 90) = true) hu
    · right
      exact h
    · left
      rw [h]
      decide

end RhymeLab

namespace RhymeLab.MainJs

open RhymeLab

/-- The only characters surviving `cleanWord` on letter/apostrophe input are
`w` and the apostrophe. -/
theorem cleanWord_chars {w : String} (h : ∀ c ∈ w.data, isTokenChar c = true)
    {c : Char} (hc : c ∈ (cleanWord w).data) :
    c = "w".get 0 ∨ c = apos := by
  unfold cleanWord at hc
  have hc2 := mem_trimChars hc
  have hfilter := List.mem_filter.mp hc2
  obtain ⟨c0, hc0mem, hc0eq⟩ := List.mem_map.mp hfilter.1
  have hrange := lowerChar_of_token (h c0 hc0mem)
  rw [hc0eq] at hrange
  rcases Bool.or_eq_true _ _ |>.mp hfilter.2 with hbw | hap
  · rcases Bool.or_eq_true _ _ |>.mp hbw with hb | hw
    · exfalso
      have hn : c.toNat = 92 := by
        rw [decide_eq_true_eq.mp hb]
        decide
      omega
    · left
      exact decide_eq_true_eq.mp hw
  · right
    exact decide_eq_true_eq.mp hap

end RhymeLab.MainJs

namespace RhymeLab.MainJs

open RhymeLab

/-- No key of the exception dictionary consists solely of `w` and
apostrophes, so the dictionary lookup misses every cleaned word. -/
theorem lookupCustomArpa_none {s : String}
    (h : ∀ c ∈ s.data, isWqChar c) : lookupCustomArpa s = none := by
  unfold lookupCustomArpa
  rw [List.find?_eq_none.mpr]
  · rfl
  · intro e he
    simp only [decide_eq_true_eq]
    intro heq
    have hall : ∀ c ∈ e.1.data, isWqChar c := by
      rw [heq]
      exact h
    have hbad : ¬ ∀ c ∈ e.1.data, isWqChar c := by
      fin_cases he <;> decide
    exact hbad hall

/-- A table whose every key contains a character outside the `w`/apostrophe
alphabet never matches a word over that alphabet. -/
theorem findTableMatch_none {table : List (String × String)}
    {rest : List Char} (h : ∀ c ∈ rest, isWqChar c)
    (htab : ∀ e ∈ table, ¬ ∀ c ∈ (Prod.fst e).data, isWqChar c) :
    findTableMatch table rest = none := by
  unfold findTableMatch
  rw [List.find?_eq_none.mpr]
  · rfl
  · intro e he
    simp only [Bool.not_eq_true]
    cases hp : e.1.data.isPrefixOf rest
    · rfl
    · exact absurd (fun c hc => h c (mem_of_isPrefixOf hp hc)) (htab e he)

/-- Every vowel spelling pattern contains a character outside the
`w`/apostrophe alphabet. -/
theorem vowelPatterns_not_wq :
    ∀ e ∈ VOWEL_PATTERNS, ¬ ∀ c ∈ (Prod.fst e).data, isWqChar c := by
  decide

/-- Every consonant digraph contains a character outside the `w`/apostrophe
alphabet. -/
theorem digraphs_not_wq :
    ∀ e ∈ CONSONANT_DIGRAPHS, ¬ ∀ c ∈ (Prod.fst e).data, isWqChar c := by
  decide

/-- Over the `w`/apostrophe alphabet the G2P scanning loop only ever emits
the consonant `W`. -/
theorem g2pLoop_all_W :
    ∀ fuel rest stressed, (∀ c ∈ rest, isWqChar c) →
      ∀ p ∈ g2pLoop fuel rest stressed, p = "W" := by
  intro fuel
  induction fuel with
  | zero =>
    intro rest stressed _ p hp
    simp [g2pLoop] at hp
  | succ n ih =>
    intro rest stressed h p hp
    cases rest with
    | nil => simp [g2pLoop] at hp
    | cons c rest2 =>
      rw [g2pLoop] at hp
      rw [findTableMatch_none h vowelPatterns_not_wq] at hp
      rw [findTableMatch_none h digraphs_not_wq] at hp
      have hc := h c (List.mem_cons_self c rest2)
      have htail : ∀ x ∈ rest2, isWqChar x :=
        fun x hx => h x (List.mem_cons_of_mem c hx)
      rcases hc with hw | ha
      · rw [hw] at hp
        have : ("w".get 0 ∈ simpleVowelChars) = False := by decide
        simp only [this, if_false] at hp
        have hlk : charLookup CONSONANT_MAP ("w".get 0) = some "W" := by decide
        rw [hlk] at hp
        rcases List.mem_cons.mp hp with h1 | h1
        · exact h1
        · exact ih rest2 stressed htail p h1
      · rw [ha] at hp
        have : (apos ∈ simpleVowelChars) = False := by decide
        simp only [this, if_false] at hp
        have hlk : charLookup CONSONANT_MAP apos = none := by decide
        rw [hlk] at hp
        exact ih rest2 stressed htail p hp

end RhymeLab.MainJs

namespace RhymeLab.MainJs

open RhymeLab

/-- Members of the duplicate-collapse output come from the accumulator or the
input. -/
theorem dedupPhones_subset :
    ∀ l acc p, p ∈ dedupPhones acc l → p ∈ acc ∨ p ∈ l := by
  intro l
  induction l with
  | nil =>
    intro acc p hp
    left
    simpa [dedupPhones] using hp
  | cons q rest ih =>
    intro acc p hp
    rw [dedupPhones] at hp
    by_cases hcond : (acc = [] || acc.getLast? ≠ some q ||
        decide (normalizePhone q ∈ ARPA_VOWELS)) = true
    · rw [if_pos hcond] at hp
      rcases ih (acc ++ [q]) p hp with hacc | hrest
      · rcases List.mem_append.mp hacc with h1 | h1
        · exact Or.inl h1
        · right
          rw [List.mem_singleton.mp h1]
          exact List.mem_cons_self q rest
      · right
        exact List.mem_cons_of_mem q hrest
    · rw [if_neg hcond] at hp
      rcases ih acc p hp with h1 | h1
      · exact Or.inl h1
      · right
        exact List.mem_cons_of_mem q h1

/-- `wordToPhones` on a word of letters and apostrophes emits only `W`. -/
theorem wordToPhones_all_W {w : String}
    (h : ∀ c ∈ w.data, isTokenChar c = true) :
    ∀ p ∈ wordToPhones w, p = "W" := by
  intro p hp
  have hwq : ∀ c ∈ (cleanWord w).data, isWqChar c :=
    fun c hc => cleanWord_chars h hc
  have heq : wordToPhones w = g2pHeuristic (cleanWord w) := by
    unfold wordToPhones
    simp only [lookupCustomArpa_none hwq]
  rw [heq] at hp
  unfold g2pHeuristic at hp
  have hwq2 : ∀ c ∈ (cleanWord w).data.map lowerChar, isWqChar c := by
    intro c hc
    obtain ⟨c0, hc0, hc0eq⟩ := List.mem_map.mp hc
    rcases hwq c0 hc0 with h1 | h1 <;>
      · rw [← hc0eq, h1]
        first
          | exact Or.inl (by decide)
          | exact Or.inr (by decide)
  rcases dedupPhones_subset _ _ p hp with hacc | hmem
  · simp at hacc
  · have := List.mem_filter.mp hmem
    exact g2pLoop_all_W _ _ false hwq2 p this.1

/-- The syllabification loop on vowel-free phones appends everything to the
syllable under construction. -/
theorem syllabifyGo_no_vowel :
    ∀ l sylls current si,
      (∀ p ∈ l, decide (normalizePhone p ∈ ARPA_VOWELS) = false) →
      syllabifyGo l sylls current si =
        (if current ++ l ≠ [] then sylls ++ [current ++ l] else sylls, si) := by
  intro l
  induction l with
  | nil =>
    intro sylls current si _
    simp [syllabifyGo]
  | cons p rest ih =>
    intro sylls current si h
    rw [syllabifyGo]
    rw [h p (List.mem_cons_self p rest)]
    simp only [Bool.false_eq_true, if_false]
    rw [ih sylls (current ++ [p]) si
      (fun q hq => h q (List.mem_cons_of_mem p hq))]
    simp

/-- `syllabify` of a vowel-free phone list: one syllable holding everything
(or none at all), stressed at the defaulted final position. -/
theorem syllabify_no_vowel {phones : List String}
    (h : ∀ p ∈ phones, decide (normalizePhone p ∈ ARPA_VOWELS) = false) :
    syllabify phones =
      if phones = [] then ([], none) else ([phones], some 0) := by
  unfold syllabify
  rw [syllabifyGo_no_vowel phones [] [] none h]
  cases phones with
  | nil => simp
  | cons p rest => simp

/-- The nucleus/coda extraction on a vowel-free syllable yields nothing. -/
theorem extractNucleusAndCoda_no_vowel {syl : List String}
    (h : ∀ p ∈ syl, decide (normalizePhone p ∈ ARPA_VOWELS) = false) :
    extractNucleusAndCoda syl = (none, []) := by
  unfold extractNucleusAndCoda
  induction syl with
  | nil => rfl
  | cons p rest ih =>
    rw [List.foldl_cons]
    have hp := h p (List.mem_cons_self p rest)
    simp only [hp, Bool.false_eq_true, if_false]
    simp only [ne_eq, not_true_eq_false, if_false]
    exact ih (fun q hq => h q (List.mem_cons_of_mem p hq))

/-- Words whose phones are all `W` have no rhyme key. -/
theorem getRhymeKey_none_of_all_W {phones : List String}
    (h : ∀ p ∈ phones, p = "W") :
    getRhymeKey (syllabify phones).1 (syllabify phones).2 = none := by
  have hnv : ∀ p ∈ phones, decide (normalizePhone p ∈ ARPA_VOWELS) = false := by
    intro p hp
    rw [h p hp]
    decide
  rw [syllabify_no_vowel hnv]
  cases he : phones with
  | nil => simp [getRhymeKey]
  | cons p rest =>
    simp only [if_neg (by simp : ¬(p :: rest = []))]
    unfold getRhymeKey
    rw [if_neg (by simp : ¬([p :: rest] = ([] : List (List String))))]
    have hext : extractNucleusAndCoda (p :: rest) = (none, []) := by
      apply extractNucleusAndCoda_no_vowel
      rw [← he]
      exact hnv
    simp [hext]

end RhymeLab.MainJs

namespace RhymeLab.MainJs

open RhymeLab

/-- Every token that the `main.js` tokenizer emits consists of letters and
apostrophes. -/
theorem tokenize_chars :
    ∀ fuel l i tok pos, (tok, pos) ∈ tokenize fuel l i →
      ∀ c ∈ tok.data, isTokenChar c = true := by
  intro fuel
  induction fuel with
  | zero =>
    intro l i tok pos hmem
    simp [tokenize] at hmem
  | succ n ih =>
    intro l i tok pos hmem
    cases l with
    | nil => simp [tokenize] at hmem
    | cons c rest =>
      rw [tokenize] at hmem
      by_cases hc : isTokenChar c = true
      · rw [if_pos hc] at hmem
        rcases List.mem_cons.mp hmem with h1 | h1
        · intro x hx
          have hdata : tok.data = c :: rest.takeWhile isTokenChar := by
            have := congrArg Prod.fst h1
            simp at this
            rw [this]
          rw [hdata] at hx
          rcases List.mem_cons.mp hx with h2 | h2
          · rw [h2]
            exact hc
          · exact List.mem_takeWhile_imp h2
        · exact ih _ _ tok pos h1
      · rw [if_neg hc] at hmem
        exact ih _ _ tok pos hmem

/-- The tokenizer finds nothing in a line without token characters. -/
theorem tokenize_nil :
    ∀ fuel l i, (∀ c ∈ l, isTokenChar c = false) → tokenize fuel l i = [] := by
  intro fuel
  induction fuel with
  | zero =>
    intro l i _
    rfl
  | succ n ih =>
    intro l i h
    cases l with
    | nil => rfl
    | cons c rest =>
      rw [tokenize]
      rw [if_neg (by simp [h c (List.mem_cons_self c rest)])]
      exact ih rest (i + 1) (fun x hx => h x (List.mem_cons_of_mem c hx))

/-- Characters of any segment produced by the literal split occur in the
input. -/
theorem splitLitBackslashN_subset :
    ∀ l seg, seg ∈ splitLitBackslashN l → ∀ c ∈ seg, c ∈ l := by
  intro l
  induction l using splitLitBackslashN.induct with
  | case1 =>
    intro seg hseg c hc
    simp [splitLitBackslashN] at hseg
    rw [hseg] at hc
    simp at hc
  | case2 x =>
    intro seg hseg c hc
    simp [splitLitBackslashN] at hseg
    rw [hseg] at hc
    exact hc
  | case3 x d rest hcond ih =>
    intro seg hseg c hc
    rw [splitLitBackslashN, if_pos hcond] at hseg
    rcases List.mem_cons.mp hseg with h1 | h1
    · rw [h1] at hc
      simp at hc
    · have := ih seg h1 c hc
      exact List.mem_cons_of_mem x (List.mem_cons_of_mem d this)
  | case4 x d rest hcond hsp ih =>
    intro seg hseg c hc
    rw [splitLitBackslashN, if_neg hcond, hsp] at hseg
    simp only [List.mem_singleton] at hseg
    rw [hseg] at hc
    simp only [List.mem_singleton] at hc
    simp [hc]
  | case5 x d rest hcond s ss hsp ih =>
    intro seg hseg c hc
    rw [splitLitBackslashN, if_neg hcond, hsp] at hseg
    rcases List.mem_cons.mp hseg with h1 | h1
    · rw [h1] at hc
      rcases List.mem_cons.mp hc with h2 | h2
      · simp [h2]
      · have := ih s (by rw [hsp]; exact List.mem_cons_self s ss) c h2
        exact List.mem_cons_of_mem x this
    · have := ih seg (by rw [hsp]; exact List.mem_cons_of_mem s h1) c hc
      exact List.mem_cons_of_mem x this

end RhymeLab.MainJs

namespace RhymeLab.MainJs

open RhymeLab

/-- Every word token extracted by `analyze` carries the syllabification of
its own phones, and those phones are all `W`. -/
theorem extractWords_shape {text : String} {w : WordTok}
    (hw : w ∈ extractWords text) :
    (∀ p ∈ w.phones, p = "W") ∧
      w.syllables = (syllabify w.phones).1 ∧
      w.stress = (syllabify w.phones).2 := by
  unfold extractWords at hw
  obtain ⟨le, _, hmem⟩ := List.mem_flatMap.mp hw
  obtain ⟨tp, htok, hmk⟩ := List.mem_filterMap.mp hmem
  unfold mkWordTok at hmk
  by_cases hstop :
      (STOP_WORDS.contains (cleanWord tp.1) &&
        (cleanWord tp.1).length ≤ 2) = true
  · rw [if_pos hstop] at hmk
    exact absurd hmk (by simp)
  · rw [if_neg hstop] at hmk
    have hrec := Option.some.inj hmk
    have htokc : ∀ c ∈ tp.1.data, isTokenChar c = true :=
      tokenize_chars _ _ _ tp.1 tp.2 (by
        cases tp
        exact htok)
    have hcw : ∀ c ∈ (cleanWord tp.1).data, isTokenChar c = true := by
      intro c hc
      rcases cleanWord_chars htokc hc with h1 | h1 <;>
        · rw [h1]
          decide
    have hphW : ∀ p ∈ wordToPhones (cleanWord tp.1), p = "W" :=
      wordToPhones_all_W hcw
    constructor
    · intro p hp
      apply hphW
      have : w.phones = wordToPhones (cleanWord tp.1) := by
        rw [← hrec]
      rw [← this]
      exact hp
    · constructor
      · rw [← hrec]
      · rw [← hrec]

/-- With every word keyless, `buildSpans` is empty. -/
theorem buildSpans_nil {words : List WordTok}
    (h : ∀ w ∈ words, getRhymeKey w.syllables w.stress = none) :
    buildSpans words = [] := by
  unfold buildSpans
  rw [List.filterMap_eq_nil_iff.mpr]
  intro iw hiw
  show (match getRhymeKey iw.2.syllables iw.2.stress with
    | none => none
    | some key => _) = none
  rw [h iw.2 (List.snd_mem_of_mem_enum hiw)]

/-- The literal `main.js` pipeline produces no rhyme spans for any input:
every token's cleaned form ranges over `w` and apostrophes only, the
dictionary never hits, the heuristic converter emits only the consonant `W`,
and a vowel-free word has no rhyme key. -/
theorem analyze_spans_nil (text : String) :
    buildSpans (extractWords text) = [] := by
  apply buildSpans_nil
  intro w hw
  obtain ⟨hW, hsyl, hstr⟩ := extractWords_shape hw
  rw [hsyl, hstr]
  exact getRhymeKey_none_of_all_W hW

/-- Hence `analyze` produces no rhyme groups for any input text. -/
theorem analyze_groups_nil (text : String) (st : Settings) :
    (analyze text st).groups = [] := by
  show rhymeGroups st (extractWords text) (buildSpans (extractWords text)) = []
  rw [analyze_spans_nil text]
  rfl

end RhymeLab.MainJs

namespace RhymeLab.MainJs

open RhymeLab

/-- Every non-seed member of a group produced by the greedy pass was accepted
by `joinOk` against the group's seed (its first element). -/
theorem greedyPass_tail_joinOk {seedOk : Nat → Bool}
    {joinOk : Nat → Nat → Bool} {minSize n : Nat} :
    ∀ fuel i assigned g, g ∈ greedyPass seedOk joinOk minSize n fuel i assigned →
      ∀ hd tl, g = hd :: tl → ∀ j ∈ tl, joinOk hd j = true := by
  intro fuel
  induction fuel with
  | zero =>
    intro i assigned g hg
    simp [greedyPass] at hg
  | succ m ih =>
    intro i assigned g hg hd tl hgeq j hj
    rw [greedyPass] at hg
    by_cases hin : i < n
    · rw [if_pos hin] at hg
      by_cases hskip : (assigned.contains i || !seedOk i) = true
      · rw [if_pos hskip] at hg
        exact ih _ _ g hg hd tl hgeq j hj
      · rw [if_neg hskip] at hg
        by_cases hsize :
            (i :: ((List.range n).filter (fun j =>
              i < j && !assigned.contains j && joinOk i j))).length ≥ minSize
        · rw [if_pos hsize] at hg
          rcases List.mem_cons.mp hg with h1 | h1
          · rw [h1] at hgeq
            have hhd : hd = i := (List.cons.inj hgeq.symm).1
            have htl : tl = (List.range n).filter (fun j =>
                i < j && !assigned.contains j && joinOk i j) :=
              (List.cons.inj hgeq.symm).2
            rw [htl] at hj
            have := (List.mem_filter.mp hj).2
            simp only [Bool.and_eq_true] at this
            rw [hhd]
            exact this.2
          · exact ih _ _ g h1 hd tl hgeq j hj
        · rw [if_neg hsize] at hg
          exact ih _ _ g hg hd tl hgeq j hj
    · rw [if_neg hin] at hg
      simp at hg

/-- Every syllable built by the syllabification loop holds at most one phone
recognized as a vowel, given that invariant on the state. -/
theorem syllabifyGo_le_one :
    ∀ l sylls current si,
      (∀ s ∈ sylls,
        s.countP (fun p => decide (normalizePhone p ∈ ARPA_VOWELS)) ≤ 1) →
      current.countP (fun p => decide (normalizePhone p ∈ ARPA_VOWELS)) ≤ 1 →
      ∀ s ∈ (syllabifyGo l sylls current si).1,
        s.countP (fun p => decide (normalizePhone p ∈ ARPA_VOWELS)) ≤ 1 := by
  intro l
  induction l with
  | nil =>
    intro sylls current si hs hc s hmem
    unfold syllabifyGo at hmem
    by_cases hcur : current ≠ []
    · simp only [if_pos hcur] at hmem
      rcases List.mem_append.mp hmem with h1 | h1
      · exact hs s h1
      · rw [List.mem_singleton.mp h1]
        exact hc
    · simp only [if_neg hcur] at hmem
      exact hs s hmem
  | cons p rest ih =>
    intro sylls current si hs hc s hmem
    rw [syllabifyGo] at hmem
    by_cases hv : decide (normalizePhone p ∈ ARPA_VOWELS) = true
    · simp only [hv, if_true] at hmem
      apply ih _ _ _ _ _ s hmem
      · intro s2 hs2
        by_cases hcur : current ≠ []
        · simp only [if_pos hcur] at hs2
          rcases List.mem_append.mp hs2 with h1 | h1
          · exact hs s2 h1
          · rw [List.mem_singleton.mp h1]
            exact hc
        · simp only [if_neg hcur] at hs2
          exact hs s2 hs2
      · simp [List.countP_cons, hv]
    · simp only [hv, Bool.false_eq_true, if_false] at hmem
      refine ih _ _ _ hs ?_ s hmem
      rw [List.countP_append]
      have : List.countP (fun p => decide (normalizePhone p ∈ ARPA_VOWELS))
          [p] = 0 := by
        simp [List.countP_cons, hv]
      omega

/-- The syllable list of `syllabify` is the one built by its loop; the
postprocessing only adjusts the stress index. -/
theorem syllabify_fst (phones : List String) :
    (syllabify phones).1 = (syllabifyGo phones [] [] none).1 := by
  unfold syllabify
  rcases hr : syllabifyGo phones [] [] none with ⟨sylls, si⟩
  cases si
  · by_cases hlen : sylls.length > 0 <;> simp [hlen]
  · simp

/-- Every syllable returned by `syllabify` holds at most one phone recognized
as a vowel. -/
theorem syllabify_le_one (phones : List String) :
    ∀ s ∈ (syllabify phones).1,
      s.countP (fun p => decide (normalizePhone p ∈ ARPA_VOWELS)) ≤ 1 := by
  intro s hmem
  rw [syllabify_fst] at hmem
  exact syllabifyGo_le_one phones [] [] none (by simp) (by simp) s hmem

end RhymeLab.MainJs

namespace RhymeLab

/-- Whitespace characters are not token characters. -/
theorem wsChar_not_token {c : Char} (h : c ∈ wsChars) :
    isTokenChar c = false := by
  fin_cases h <;> decide

end RhymeLab

namespace RhymeLab.MainJs

open RhymeLab

/-- Whitespace-only input yields no word tokens. -/
theorem extractWords_ws {text : String}
    (h : ∀ c ∈ text.data, c ∈ wsChars) : extractWords text = [] := by
  unfold extractWords
  rw [List.flatMap_eq_nil_iff.mpr]
  intro le hle
  have hseg : ∀ c ∈ le.2, c ∈ wsChars := by
    intro c hc
    exact h c (splitLitBackslashN_subset text.data le.2
      (List.snd_mem_of_mem_enum hle) c hc)
  rw [tokenize_nil le.2.length le.2 0
    (fun c hc => wsChar_not_token (hseg c hc))]
  rfl

end RhymeLab.MainJs

namespace RhymeLab.Mini

open RhymeLab

/-- The `join(' ')` of two non-empty tails of space-free phones are equal only
when the tails are equal (the separator can be uniquely re-split). -/
theorem append_space_inj :
    ∀ (a : List Char) (as : List Char) (b : List Char) (bs : List Char),
      " ".get 0 ∉ a → " ".get 0 ∉ b →
      a ++ " ".get 0 :: as = b ++ " ".get 0 :: bs → a = b ∧ as = bs := by
  intro a
  induction a with
  | nil =>
    intro as b bs _ hb heq
    cases b with
    | nil =>
      simp at heq
      exact ⟨rfl, heq⟩
    | cons c b2 =>
      simp at heq
      exfalso
      apply hb
      rw [← heq.1]
      exact List.mem_cons_self _ b2
  | cons c a2 ih =>
    intro as b bs ha hb heq
    cases b with
    | nil =>
      simp at heq
      exfalso
      apply ha
      rw [heq.1]
      exact List.mem_cons_self _ a2
    | cons d b2 =>
      simp only [List.cons_append, List.cons.injEq] at heq
      have hrec := ih as b2 bs (fun hm => ha (List.mem_cons_of_mem c hm))
        (fun hm => hb (List.mem_cons_of_mem d hm)) heq.2
      exact ⟨by rw [heq.1, hrec.1], hrec.2⟩

end RhymeLab.Mini

namespace RhymeLab.Mini

open RhymeLab

/-- On non-empty tails of space-free phones, the joined string determines the
tail: two distinct tails never collide. -/
theorem joinSpData_inj :
    ∀ t1 t2 : List String, t1 ≠ [] → t2 ≠ [] →
      (∀ p ∈ t1, " ".get 0 ∉ p.data) → (∀ p ∈ t2, " ".get 0 ∉ p.data) →
      joinSpData t1 = joinSpData t2 → t1 = t2 := by
  intro t1
  induction t1 with
  | nil =>
    intro t2 h1 _ _ _ _
    exact absurd rfl h1
  | cons x xs ih =>
    intro t2 _ h2 hsp1 hsp2 heq
    cases t2 with
    | nil => exact absurd rfl h2
    | cons y ys =>
      cases xs with
      | nil =>
        cases ys with
        | nil =>
          simp only [joinSpData] at heq
          rw [string_eq_of_data_eq heq]
        | cons y2 ys2 =>
          simp only [joinSpData] at heq
          exfalso
          apply hsp1 x (List.mem_cons_self x [])
          rw [heq]
          exact List.mem_append.mpr (Or.inr (List.mem_cons_self _ _))
      | cons x2 xs2 =>
        cases ys with
        | nil =>
          simp only [joinSpData] at heq
          exfalso
          apply hsp2 y (List.mem_cons_self y [])
          rw [← heq]
          exact List.mem_append.mpr (Or.inr (List.mem_cons_self _ _))
        | cons y2 ys2 =>
          simp only [joinSpData] at heq
          have hsplit := append_space_inj x.data _ y.data _
            (hsp1 x (List.mem_cons_self x _))
            (hsp2 y (List.mem_cons_self y _)) heq
          have hxy : x = y := string_eq_of_data_eq hsplit.1
          have hrest := ih (y2 :: ys2) (by simp) (by simp)
            (fun p hp => hsp1 p (List.mem_cons_of_mem x hp))
            (fun p hp => hsp2 p (List.mem_cons_of_mem y hp)) hsplit.2
          rw [hxy, hrest]

end RhymeLab.Mini

namespace RhymeLab.Spec

open RhymeLab

/-- On the label alphabet, equality of the code's family indices coincides
with membership in a common family of the 4-way partition (outside the
alphabet the code's fallback index 9 identifies all unknown labels). -/
theorem family_eq_iff :
    ∀ a ∈ nucleusLabels, ∀ b ∈ nucleusLabels,
      ((MainJs.getVowelFamily a = MainJs.getVowelFamily b) ↔
        sameFamily4 a b = true) := by
  decide

end RhymeLab.Spec

namespace RhymeLab

open RhymeLab

/-- The nucleus distance of the code agrees with the specification's formula
whenever both final vowel components are genuine nucleus labels (the labels
produced by the vowel-classification table). -/
theorem nucleusDistance_eq_spec (n1 n2 : String)
    (h1 : MainJs.finalVowelComponent n1 ∈ Spec.nucleusLabels)
    (h2 : MainJs.finalVowelComponent n2 ∈ Spec.nucleusLabels) :
    MainJs.nucleusDistance n1 n2 = Spec.specNucleusDistance n1 n2 := by
  unfold MainJs.nucleusDistance Spec.specNucleusDistance
  by_cases he : n1 = n2
  · rw [if_pos he, if_pos he]
  · rw [if_neg he, if_neg he]
    show (if MainJs.finalVowelComponent n1 = MainJs.finalVowelComponent n2
        then (1/20 : ℚ)
        else if MainJs.getVowelFamily (MainJs.finalVowelComponent n1) =
            MainJs.getVowelFamily (MainJs.finalVowelComponent n2) then 1/4
        else 3/5) =
      (if MainJs.finalVowelComponent n1 = MainJs.finalVowelComponent n2
        then (1/20 : ℚ)
        else if Spec.sameFamily4 (MainJs.finalVowelComponent n1)
            (MainJs.finalVowelComponent n2) then 1/4
        else 3/5)
    by_cases hab :
        MainJs.finalVowelComponent n1 = MainJs.finalVowelComponent n2
    · rw [if_pos hab, if_pos hab]
    · rw [if_neg hab, if_neg hab]
      by_cases hfam : MainJs.getVowelFamily (MainJs.finalVowelComponent n1) =
          MainJs.getVowelFamily (MainJs.finalVowelComponent n2)
      · rw [if_pos hfam, if_pos ((Spec.family_eq_iff _ h1 _ h2).mp hfam)]
      · rw [if_neg hfam,
          if_neg (fun hs => hfam ((Spec.family_eq_iff _ h1 _ h2).mpr hs))]

/-- C3 (confirmed).  For every pair of non-absent rhyme keys — whose final
vowel components are nucleus labels, as the extractor guarantees — the
combined rhyme distance equals the specification's formula:
`0.7 * nucleusDistance + 0.3 * codaDistance` with the claimed nucleus cases
(0, 0.05, 0.25 within the fixed 4-way vowel-family partition, else 0.6) and
the claimed coda cases (0 on equality, 0.6 when exactly one coda is empty,
else 0.35 times the end-aligned mismatch count plus 0.5 per unit of length
difference, clamped to 1). -/
theorem claim_C3_distance_formula (k1 k2 : String × List String)
    (h1 : MainJs.finalVowelComponent k1.1 ∈ Spec.nucleusLabels)
    (h2 : MainJs.finalVowelComponent k2.1 ∈ Spec.nucleusLabels) :
    MainJs.rhymeDistance k1 k2 = Spec.specRhymeDistance k1 k2 := by
  unfold MainJs.rhymeDistance Spec.specRhymeDistance
  rw [nucleusDistance_eq_spec k1.1 k2.1 h1 h2]
  rfl

/-- Witness for C3 at the concrete keys (`A`, `[T]`) and (`E`, `[T]`):
the hypotheses hold and the distances agree (the shared value is 0.42). -/
theorem claim_C3_witness :
    (MainJs.finalVowelComponent ("A", ["T"]).1 ∈ Spec.nucleusLabels) ∧
    (MainJs.finalVowelComponent ("E", ["T"]).1 ∈ Spec.nucleusLabels) ∧
    MainJs.rhymeDistance ("A", ["T"]) ("E", ["T"]) =
      Spec.specRhymeDistance ("A", ["T"]) ("E", ["T"]) ∧
    MainJs.rhymeDistance ("A", ["T"]) ("E", ["T"]) = 21/50 := by
  refine ⟨by decide, by decide,
    claim_C3_distance_formula ("A", ["T"]) ("E", ["T"]) (by decide) (by decide),
    ?_⟩
  have h1 : MainJs.nucleusDistance "A" "E" = 3/5 := by
    unfold MainJs.nucleusDistance
    rw [if_neg (by decide : ¬("A" : String) = "E")]
    show (if MainJs.finalVowelComponent "A" = MainJs.finalVowelComponent "E"
      then (1/20 : ℚ)
      else if MainJs.getVowelFamily (MainJs.finalVowelComponent "A") =
          MainJs.getVowelFamily (MainJs.finalVowelComponent "E") then 1/4
      else 3/5) = 3/5
    rw [if_neg (by decide), if_neg (by decide)]
  have h2 : MainJs.codaDistance ["T"] ["T"] = 0 := by
    unfold MainJs.codaDistance
    rw [if_pos rfl]
  unfold MainJs.rhymeDistance
  rw [h1, h2]
  norm_num

end RhymeLab

namespace RhymeLab

open RhymeLab

/-- Counterexample to C1.  In the minimal engine, the input
`"cat bat bat"` at threshold 0.5 produces the single rhyme group
`[0, 1, 2]`, and the word tokens at indices 1 and 2 are both `bat` —
two word tokens with equal normalized text sitting in the same rhyme group,
contradicting the claim. -/
theorem claim_C1_counterexample :
    (Mini.analyzeText "cat bat bat" (Rat.divInt 1 2)).groups = [[0, 1, 2]] ∧
    ((Mini.analyzeText "cat bat bat"
      (Rat.divInt 1 2)).words.getD 1 default).text = "bat" ∧
    ((Mini.analyzeText "cat bat bat"
      (Rat.divInt 1 2)).words.getD 2 default).text = "bat" := by
  decide

/-- C1 (amended).  The duplicate-word exclusion of the grouping loop is
checked only against the group's seed: the first member of every rhyme group
of the minimal engine differs in lower-cased text from each other member of
that group.  (Two non-seed members may still share normalized text, as the
counterexample shows.) -/
theorem claim_C1_seed_exclusion (words : List Mini.WordMini) (thr : ℚ)
    (g : List Nat) (hg : g ∈ Mini.findGroupsMini words thr)
    (hd : Nat) (tl : List Nat) (hsplit : g = hd :: tl)
    (j : Nat) (hj : j ∈ tl) :
    Mini.lowerTextAt words hd ≠ Mini.lowerTextAt words j := by
  have hjoin := MainJs.greedyPass_tail_joinOk _ _ _ g hg hd tl hsplit j hj
  unfold Mini.miniJoinOk at hjoin
  simp only [Bool.and_eq_true, decide_eq_true_eq] at hjoin
  exact hjoin.2

/-- Witness for C1's amended statement on the concrete counterexample input:
the seed `cat` of the group `[0, 1, 2]` differs in lower-cased text from the
member `bat`. -/
theorem claim_C1_witness :
    Mini.lowerTextAt (Mini.analyzeText "cat bat bat" (Rat.divInt 1 2)).words 0 ≠
      Mini.lowerTextAt
        (Mini.analyzeText "cat bat bat" (Rat.divInt 1 2)).words 1 :=
  claim_C1_seed_exclusion
    (Mini.analyzeText "cat bat bat" (Rat.divInt 1 2)).words (Rat.divInt 1 2)
    [0, 1, 2] (by decide) 0 [1, 2] rfl 1 (by decide)

end RhymeLab

namespace RhymeLab

open RhymeLab

/-- C2 (confirmed).  On empty or whitespace-only input text, `analyze`
returns a well-formed empty result: no word tokens, no rhyme groups, no
assonance groups, and zero-valued metrics (density 0).  The function is total
in Lean, so no exception can be raised on the way. -/
theorem claim_C2_empty_input (text : String) (st : MainJs.Settings)
    (h : ∀ c ∈ text.data, c ∈ wsChars) :
    (MainJs.analyze text st).words = [] ∧
    (MainJs.analyze text st).groups = [] ∧
    (MainJs.analyze text st).assonanceGroups = [] ∧
    (MainJs.analyze text st).metrics.density = 0 ∧
    (MainJs.analyze text st).metrics.totalSyllables = 0 ∧
    (MainJs.analyze text st).metrics.rhymingSyllables = 0 ∧
    (MainJs.analyze text st).metrics.avgPerLine = 0 ∧
    (MainJs.analyze text st).metrics.multiRatio = 0 := by
  have hw : MainJs.extractWords text = [] := MainJs.extractWords_ws h
  unfold MainJs.analyze
  rw [hw]
  rcases st with ⟨p, s, ha, si⟩
  cases ha <;> cases si <;>
    exact ⟨rfl, rfl, rfl, rfl, rfl, rfl, rfl, rfl⟩

/-- Witness for C2 at the whitespace-only input consisting of one space
(with the default settings). -/
theorem claim_C2_witness :
    (MainJs.analyze " " MainJs.defaultSettings).words = [] ∧
    (MainJs.analyze " " MainJs.defaultSettings).groups = [] ∧
    (MainJs.analyze " " MainJs.defaultSettings).metrics.density = 0 :=
  ⟨(claim_C2_empty_input " " MainJs.defaultSettings (by decide)).1,
   (claim_C2_empty_input " " MainJs.defaultSettings (by decide)).2.1,
   (claim_C2_empty_input " " MainJs.defaultSettings (by decide)).2.2.2.1⟩

end RhymeLab

namespace RhymeLab

open RhymeLab

/-- C4 (code bug).  On the input `"cat\nhat"` the code produces no rhyme
key at all for either word and an end-rhyme scheme of `"-"`, not one group
of two `AE`-class/`[T]` words with scheme `"AA"`: `cleanWord`'s double-escaped
character class deletes every letter of `cat` and `hat`, so both words get
the empty phoneme sequence, no spans and no groups, and because
`split('\x5C\x5Cn')` never splits at a real newline both words sit on one
line, giving the one-character scheme `"-"`. -/
theorem claim_C4_cat_hat :
    (MainJs.analyze MainJs.catHatText MainJs.defaultSettings).groups = [] ∧
    (MainJs.analyze MainJs.catHatText MainJs.defaultSettings).spans = [] ∧
    (MainJs.analyze MainJs.catHatText
      MainJs.defaultSettings).metrics.scheme = "-" ∧
    (MainJs.analyze MainJs.catHatText
      MainJs.defaultSettings).words.length = 2 ∧
    ((MainJs.analyze MainJs.catHatText
      MainJs.defaultSettings).words.getD 0 default).phones = [] := by
  decide

/-- Counterexample to C5.  `syllabify` on `[K, AH, T, AE0]` emits the
vowel-less onset syllable `[K]` (pre-vowel consonants are pushed as a
syllable of their own, not attached to the first vowel's syllable), and its
second syllable holds two vowel phonemes (`AH` bare and the stress-marked
`AE0`, which the digit-preserving `normalizePhone` fails to recognize) — so
not every syllable contains exactly one vowel phoneme. -/
theorem claim_C5_counterexample :
    (MainJs.syllabify ["K", "AH", "T", "AE0"]).1 =
      [["K"], ["AH", "T", "AE0"]] ∧
    ¬ (∀ s ∈ (MainJs.syllabify ["K", "AH", "T", "AE0"]).1,
        s.countP Spec.isVowelPhone = 1) := by
  decide

/-- C5 (amended).  Every syllable produced by `syllabify` contains at most
one phone that the code recognizes as a vowel (a digit-free ARPA vowel
code); a new syllable starts at each such phone, and phones before the first
recognized vowel are emitted as a syllable of their own, which may be
vowel-free.  Stress-marked vowels are not recognized, since `normalizePhone`
leaves stress digits in place. -/
theorem claim_C5_at_most_one_vowel (phones : List String) :
    ∀ s ∈ (MainJs.syllabify phones).1,
      s.countP (fun p => decide (MainJs.normalizePhone p ∈ ARPA_VOWELS)) ≤ 1 :=
  MainJs.syllabify_le_one phones

/-- Witness for C5's amended statement: the first syllable of
`syllabify [K, AH]` is `[K]`, and it holds at most one recognized vowel. -/
theorem claim_C5_witness :
    ["K"] ∈ (MainJs.syllabify ["K", "AH"]).1 ∧
    (["K"] : List String).countP
      (fun p => decide (MainJs.normalizePhone p ∈ ARPA_VOWELS)) ≤ 1 :=
  ⟨by decide, claim_C5_at_most_one_vowel ["K", "AH"] ["K"] (by decide)⟩

/-- C6 (code bug).  On `[AE1, T, AH]` the first vowel phoneme carrying
stress digit 1 (`AE1`) sits in syllable 0, yet `syllabify` returns stressed
index 1: the digit-preserving `normalizePhone` keeps `AE1` from being
recognized as a vowel, the explicit-stress branch never fires, and the index
always falls back to the final syllable.  (Empty input does yield an empty
syllable list with no stress index, as claimed.) -/
theorem claim_C6_stress_default :
    (MainJs.syllabify ["AE1", "T", "AH"]).2 = some 1 ∧
    Spec.firstStress1Syllable (MainJs.syllabify ["AE1", "T", "AH"]).1 =
      some 0 ∧
    MainJs.syllabify ([] : List String) = ([], none) := by
  decide

/-- C8 (code bug).  The word `gonna` is a key of the exception dictionary
with phonemes `[G, AH1, N, AH0]`, yet `wordToPhones "gonna"` returns `[]`:
the double-escaped `cleanWord` deletes all of `gonna`'s letters, the
dictionary is probed with the empty string and misses, and the heuristic
converter runs (on the empty string) even though the claim says it must
never be consulted for a dictionary word. -/
theorem claim_C8_dictionary_bypassed :
    MainJs.cleanWord "gonna" = "" ∧
    lookupCustomArpa "gonna" = some ["G", "AH1", "N", "AH0"] ∧
    MainJs.wordToPhones "gonna" = [] := by
  decide

end RhymeLab

namespace RhymeLab

open RhymeLab

/-- C7 (confirmed).  For a fixed input text and a fixed `perfectThreshold`,
raising `slantThreshold` never decreases the number of word tokens assigned
to some rhyme group.  In this code the count is zero for every text and both
thresholds: the literal `cleanWord` reduces every token to a string of `w`s
and apostrophes, which never hits the dictionary and converts to vowel-free
phones, so no word ever receives a rhyme key and the group list is always
empty. -/
theorem claim_C7_threshold_monotonic (text : String) (p s1 s2 : ℚ)
    (ha hi : Bool) (h : s1 ≤ s2) :
    MainJs.assignedWordCount text ⟨p, s1, ha, hi⟩ ≤
      MainJs.assignedWordCount text ⟨p, s2, ha, hi⟩ := by
  unfold MainJs.assignedWordCount
  rw [MainJs.analyze_groups_nil, MainJs.analyze_groups_nil]

/-- Witness for C7 at the concrete text `"cat\nhat"` with perfect threshold
0.1 and slant thresholds 0.25 ≤ 0.5. -/
theorem claim_C7_witness :
    MainJs.assignedWordCount MainJs.catHatText ⟨1/10, 1/4, true, true⟩ ≤
      MainJs.assignedWordCount MainJs.catHatText ⟨1/10, 1/2, true, true⟩ :=
  claim_C7_threshold_monotonic MainJs.catHatText (1/10) (1/4) (1/2) true true
    (by norm_num)

/-- C9 (confirmed).  The minimal engine's positional scorer returns 0 when
either tail is empty, exactly 1 when the two non-empty tails are element-wise
identical (stress digits included), and at most 0.95 in every other case —
so a threshold above 0.95 is met only by identical tails.  The hypotheses
record that phones contain no space character, which is true of every phone
the engine produces and is what makes the `join(' ')` comparison faithful to
list equality. -/
theorem claim_C9_score_range (t1 t2 : List String)
    (h1 : ∀ p ∈ t1, " ".get 0 ∉ p.data) (h2 : ∀ p ∈ t2, " ".get 0 ∉ p.data) :
    (t1 = [] ∨ t2 = [] → Mini.scoreRhyme t1 t2 = 0) ∧
    (t1 ≠ [] → t1 = t2 → Mini.scoreRhyme t1 t2 = 1) ∧
    (¬ (t1 = t2 ∧ t1 ≠ []) → Mini.scoreRhyme t1 t2 ≤ 19/20) := by
  refine ⟨?_, ?_, ?_⟩
  · intro h
    unfold Mini.scoreRhyme
    rcases h with h | h <;> simp [h]
  · intro hne heq
    subst heq
    unfold Mini.scoreRhyme
    rw [if_neg (by simp [hne]), if_pos rfl]
  · intro hno
    by_cases h1e : t1 = []
    · unfold Mini.scoreRhyme
      rw [if_pos (by simp [h1e])]
      norm_num
    by_cases h2e : t2 = []
    · unfold Mini.scoreRhyme
      rw [if_pos (by simp [h2e])]
      norm_num
    have hne : t1 ≠ t2 := fun heq12 => hno ⟨heq12, h1e⟩
    unfold Mini.scoreRhyme
    rw [if_neg (by simp [h1e, h2e])]
    by_cases hj : Mini.joinSpData t1 = Mini.joinSpData t2
    · exact absurd (Mini.joinSpData_inj t1 t2 h1e h2e h1 h2 hj) hne
    · rw [if_neg hj]
      exact min_le_left _ _

/-- Witness for C9 on concrete tails: identical tails `[AE1, T]` score
exactly 1; the distinct tails `[AE1, T]` and `[EY1, T]` score at most 0.95;
an empty tail scores 0. -/
theorem claim_C9_witness :
    Mini.scoreRhyme ["AE1", "T"] ["AE1", "T"] = 1 ∧
    Mini.scoreRhyme ["AE1", "T"] ["EY1", "T"] ≤ 19/20 ∧
    Mini.scoreRhyme [] ["AE1", "T"] = 0 :=
  ⟨(claim_C9_score_range ["AE1", "T"] ["AE1", "T"] (by decide)
      (by decide)).2.1 (by decide) rfl,
   (claim_C9_score_range ["AE1", "T"] ["EY1", "T"] (by decide)
      (by decide)).2.2 (by decide),
   (claim_C9_score_range [] ["AE1", "T"] (by decide) (by decide)).1
      (Or.inl rfl)⟩

/-- C10 (confirmed).  On a phoneme sequence with no vowel phoneme,
`getRhymeTail` returns the last two phonemes (or fewer, never an absent
result): the fallback `phones.slice(-2)` guarantees a non-empty tail for any
non-empty vowel-less word, so such words can still enter rhyme groups. -/
theorem claim_C10_vowelless_tail (phones : List String)
    (h : ∀ p ∈ phones, Mini.strip02 p ∉ ARPA_VOWELS) :
    Mini.getRhymeTail phones = phones.drop (phones.length - 2) ∧
      (phones ≠ [] → Mini.getRhymeTail phones ≠ []) := by
  have hfind : phones.enum.reverse.find?
      (fun ip => decide (Mini.strip02 ip.2 ∈ ARPA_VOWELS)) = none := by
    rw [List.find?_eq_none]
    intro ip hip
    simp only [decide_eq_true_eq]
    rw [List.mem_reverse] at hip
    exact h ip.2 (List.snd_mem_of_mem_enum hip)
  constructor
  · unfold Mini.getRhymeTail
    rw [hfind]
  · intro hne
    unfold Mini.getRhymeTail
    rw [hfind]
    have hlen : 1 ≤ phones.length := List.length_pos.mpr hne
    simp only [ne_eq, List.drop_eq_nil_iff]
    omega

/-- Witness for C10 at the vowel-less phones `[S, K, T]`: the tail is the
last two phonemes `[K, T]` and is non-empty. -/
theorem claim_C10_witness :
    Mini.getRhymeTail ["S", "K", "T"] = ["K", "T"] ∧
      Mini.getRhymeTail ["S", "K", "T"] ≠ [] :=
  ⟨((claim_C10_vowelless_tail ["S", "K", "T"] (by decide)).1).trans (by decide),
   (claim_C10_vowelless_tail ["S", "K", "T"] (by decide)).2 (by decide)⟩

end RhymeLab
